import Mathlib

/-!
# Verification of `notion_paper_archive.py`

A shallow embedding of the reconciliation core of the paper-archive script:
per-kind field presence (`property_has_value`), typed-value construction
(`build_property_value`, `build_rich_text` with its `textwrap.wrap` chunking),
the update-payload builder (`_build_update_payload` via `maybe_set`),
missing-field detection (`_missing_fields`), title extraction
(`_extract_title`), the per-record reconciliation step of `run`, metadata
normalization (`fetch_metadata`) and citation formatting (`format_citation`).

Strings are modelled as Lean `String` (lists of characters at the points
where character-level processing happens).  Python `dict`s keyed by strings
are modelled as association lists with first-match lookup and
replace-first-or-append assignment, which agrees with Python dict semantics
on maps with unique keys (the only ones produced by the program).
-/

set_option maxHeartbeats 1000000

namespace PaperArchive

/-! ## Python string primitives -/

/-- The ASCII characters Python's `str.strip` / `textwrap` treat as
whitespace: space, tab, newline, vertical tab, form feed, carriage return.
(CPython additionally treats some Unicode codepoints as whitespace; no
claim exercises those.) -/
def pyIsSpace (c : Char) : Bool :=
  c = ' ' || c = '\t' || c = '\n' || c = '\x0b' || c = '\x0c' || c = '\r'

/-- Python `str.strip()` on a character list: drop whitespace from both ends. -/
def pyStrip (l : List Char) : List Char :=
  ((l.dropWhile pyIsSpace).reverse.dropWhile pyIsSpace).reverse

/-- Python `str.strip()` on a `String`. -/
def pyStripStr (s : String) : String :=
  String.mk (pyStrip s.data)

/-- Python `sep.join(l)`. -/
def joinSep (sep : String) : List String → String
  | [] => ""
  | x :: xs => xs.foldl (fun acc s => acc ++ sep ++ s) x

/-- Python `s.split(",")` on a character list: split at every comma,
keeping empty pieces (`"".split(",") == [""]`). -/
def splitOnComma (l : List Char) : List (List Char) :=
  l.foldr
    (fun c acc =>
      match acc with
      | [] => if c = ',' then [[], []] else [[c]]
      | cur :: rest => if c = ',' then [] :: cur :: rest else (c :: cur) :: rest)
    [[]]

/-! ## `textwrap.wrap(text, width=1800)` (CPython defaults)

The model follows `TextWrapper` with its default configuration:
`expand_tabs=True, tabsize=8, replace_whitespace=True, drop_whitespace=True,
break_long_words=True, fix_sentence_endings=False`.  The only deliberate
simplification is that `break_on_hyphens` word-splitting at hyphens inside
compound words is not modelled (no claim involves hyphenated text); word
chunks here are maximal runs of non-whitespace characters. -/

/-- Python `str.expandtabs(tabsize)`: each tab becomes spaces up to the next
multiple of `tabsize` columns; newline and carriage return reset the column. -/
def expandTabs (tabsize : Nat) : Nat → List Char → List Char
  | _, [] => []
  | col, c :: cs =>
    if c = '\t' then
      let pad := if tabsize = 0 then 0 else tabsize - col % tabsize
      List.replicate pad ' ' ++ expandTabs tabsize (col + pad) cs
    else if c = '\n' || c = '\r' then
      c :: expandTabs tabsize 0 cs
    else
      c :: expandTabs tabsize (col + 1) cs

/-- The character translation of `replace_whitespace`: every whitespace
character becomes a single space. -/
def mungeChar (c : Char) : Char :=
  if pyIsSpace c then ' ' else c

/-- Model of `TextWrapper._munge_whitespace`: expand tabs, then replace every
whitespace character by a single space. -/
def munge (l : List Char) : List Char :=
  (expandTabs 8 0 l).map mungeChar

/-- One step of splitting a munged text into maximal runs of spaces /
non-spaces (`TextWrapper._split`, without hyphen splitting). -/
def addChar (c : Char) (acc : List (List Char)) : List (List Char) :=
  match acc with
  | [] => [[c]]
  | run :: rest =>
    match run with
    | [] => [c] :: rest
    | d :: _ => if ((c == ' ') == (d == ' ')) then (c :: run) :: rest else [c] :: run :: rest

/-- Model of `TextWrapper._split` on munged text: the chunk list (words and
whitespace runs); chunks concatenate back to the input. -/
def splitRuns (l : List Char) : List (List Char) :=
  l.foldr addChar []

/-- Sum of chunk lengths. -/
def sumLen (chunks : List (List Char)) : Nat :=
  chunks.foldr (fun c n => c.length + n) 0

/-- A chunk that Python's `chunk.strip() == ''` test regards as whitespace. -/
def isBlank (l : List Char) : Bool :=
  l.all pyIsSpace

/-- The greedy inner loop of `_wrap_chunks`: keep taking whole chunks while
they fit in the remaining width; returns (current line, remaining chunks). -/
def takeLine (width : Nat) : Nat → List (List Char) → List (List Char) × List (List Char)
  | _, [] => ([], [])
  | curLen, c :: cs =>
    if curLen + c.length ≤ width then
      let p := takeLine width (curLen + c.length) cs
      (c :: p.1, p.2)
    else
      ([], c :: cs)

/-- One line-building step of `_wrap_chunks`: greedy fill, then
`_handle_long_word` (with `break_long_words=True`) if the next chunk is
longer than the whole width.  Returns (line chunks, remaining chunks). -/
def lineStep (width : Nat) (chunks : List (List Char)) :
    List (List Char) × List (List Char) :=
  let p := takeLine width 0 chunks
  match p.2 with
  | [] => (p.1, [])
  | c :: cs =>
    if width < c.length then
      let spaceLeft := if width < 1 then 1 else width - sumLen p.1
      (p.1 ++ [c.take spaceLeft], c.drop spaceLeft :: cs)
    else
      (p.1, c :: cs)

/-- The `drop_whitespace` deletion at the start of a line: if at least one line was
already produced and the first remaining chunk is whitespace, delete it. -/
def wrapDrop (hasLines : Bool) : List (List Char) → List (List Char)
  | [] => []
  | c :: cs => if hasLines && isBlank c then cs else c :: cs

/-- The `drop_whitespace` deletion at the end of a line: if the last chunk of the line is
whitespace, delete it (Python deletes at most one such chunk). -/
def dropTrailingBlank (line : List (List Char)) : List (List Char) :=
  match line.getLast? with
  | some last => if isBlank last then line.dropLast else line
  | none => line

/-- Termination measure for the outer `_wrap_chunks` loop: total number of
characters plus number of chunks. -/
def chunksMeasure (chunks : List (List Char)) : Nat :=
  sumLen chunks + chunks.length

theorem sumLen_append (l₁ l₂ : List (List Char)) :
    sumLen (l₁ ++ l₂) = sumLen l₁ + sumLen l₂ := by
  induction l₁ with
  | nil => simp [sumLen]
  | cons c cs ih => simp [sumLen, List.foldr] at ih ⊢; omega

theorem chunksMeasure_append (l₁ l₂ : List (List Char)) :
    chunksMeasure (l₁ ++ l₂) = chunksMeasure l₁ + chunksMeasure l₂ := by
  simp [chunksMeasure, sumLen_append]; omega

theorem chunksMeasure_cons (c : List Char) (cs : List (List Char)) :
    chunksMeasure (c :: cs) = c.length + 1 + chunksMeasure cs := by
  simp [chunksMeasure, sumLen]; omega

theorem takeLine_append (width : Nat) :
    ∀ (curLen : Nat) (l : List (List Char)),
      (takeLine width curLen l).1 ++ (takeLine width curLen l).2 = l := by
  intro curLen l
  induction l generalizing curLen with
  | nil => simp [takeLine]
  | cons c cs ih =>
    by_cases h : curLen + c.length ≤ width
    · simp [takeLine, h, ih]
    · simp [takeLine, h]

theorem takeLine_nil_of_fst_nil (width curLen : Nat) (d : List Char)
    (ds : List (List Char)) (h : (takeLine width curLen (d :: ds)).1 = []) :
    ¬ curLen + d.length ≤ width := by
  intro hle
  simp [takeLine, hle] at h

theorem lineStep_measure (width : Nat) (d : List Char) (ds : List (List Char)) :
    chunksMeasure (lineStep width (d :: ds)).2 < chunksMeasure (d :: ds) := by
  have happ := takeLine_append width 0 (d :: ds)
  have hsum : chunksMeasure (takeLine width 0 (d :: ds)).1 +
      chunksMeasure (takeLine width 0 (d :: ds)).2 = chunksMeasure (d :: ds) := by
    rw [← chunksMeasure_append, happ]
  unfold lineStep
  cases hp2 : (takeLine width 0 (d :: ds)).2 with
  | nil =>
    simp only [hp2]
    have hpos : 0 < chunksMeasure (d :: ds) := by
      rw [chunksMeasure_cons]; omega
    simp only [chunksMeasure, sumLen, List.foldr_nil, List.length_nil] at hpos ⊢
    omega
  | cons c cs =>
    simp only [hp2]
    by_cases hlong : width < c.length
    · simp only [hlong, if_true]
      cases hp1 : (takeLine width 0 (d :: ds)).1 with
      | nil =>
        -- nothing fitted: the head chunk itself is longer than the width,
        -- and the long-word break removes at least one character from it
        have hgt := takeLine_nil_of_fst_nil width 0 d ds hp1
        have hp2' : (c : List Char) :: cs = d :: ds := by
          have h := happ; rw [hp1, hp2] at h; simpa using h
        have hc : c = d := by injection hp2'
        have hcs : cs = ds := by injection hp2'
        subst hc; subst hcs
        have hsl : 1 ≤ (if width < 1 then 1 else width - sumLen ([] : List (List Char))) := by
          by_cases hw : width < 1
          · simp [hw]
          · simp [hw, sumLen]; omega
        rw [chunksMeasure_cons, chunksMeasure_cons]
        have hdrop :
            (c.drop (if width < 1 then 1 else width - sumLen ([] : List (List Char)))).length
              < c.length := by
          rw [List.length_drop]
          omega
        omega
      | cons a as =>
        -- some chunks fitted on the line, so the remainder lost at least
        -- one whole chunk; the long-word break never grows the remainder
        rw [hp1, hp2, chunksMeasure_cons] at hsum
        have hle :
            chunksMeasure
                (c.drop (if width < 1 then 1 else width - sumLen (a :: as)) :: cs)
              ≤ chunksMeasure (c :: cs) := by
          rw [chunksMeasure_cons, chunksMeasure_cons, List.length_drop]
          omega
        omega
    · simp only [hlong, if_false]
      -- the line is nonempty: if nothing had fitted, the head chunk would be
      -- longer than the width, contradicting `¬ width < c.length`
      cases hp1 : (takeLine width 0 (d :: ds)).1 with
      | nil =>
        exfalso
        have hgt := takeLine_nil_of_fst_nil width 0 d ds hp1
        have hp2' : (c : List Char) :: cs = d :: ds := by
          have h := happ; rw [hp1, hp2] at h; simpa using h
        have hc : c = d := by injection hp2'
        subst hc
        simp at hgt
        omega
      | cons a as =>
        rw [hp1, hp2, chunksMeasure_cons] at hsum
        omega

theorem wrapDrop_measure (hasLines : Bool) (chunks : List (List Char)) :
    chunksMeasure (wrapDrop hasLines chunks) ≤ chunksMeasure chunks := by
  cases chunks with
  | nil => simp [wrapDrop]
  | cons c cs =>
    cases hbc : hasLines && isBlank c
    · simp [wrapDrop, hbc]
    · simp only [wrapDrop, hbc, if_true]
      rw [chunksMeasure_cons]; omega

/-- The outer loop of `TextWrapper._wrap_chunks` (`width` is the wrap width,
`hasLines` records whether any line was already emitted, which gates the
leading-whitespace drop).  Each iteration optionally drops a leading
whitespace chunk, greedily fills a line, breaks an over-long word, drops a
trailing whitespace chunk, and emits the joined line if it is nonempty. -/
def wrapLoop (width : Nat) (hasLines : Bool) (chunks : List (List Char)) :
    List (List Char) :=
  match h : wrapDrop hasLines chunks with
  | [] => []
  | d :: ds =>
    if (dropTrailingBlank (lineStep width (d :: ds)).1).isEmpty then
      wrapLoop width hasLines (lineStep width (d :: ds)).2
    else
      (dropTrailingBlank (lineStep width (d :: ds)).1).flatten ::
        wrapLoop width true (lineStep width (d :: ds)).2
  termination_by chunksMeasure chunks
  decreasing_by
  · exact lt_of_lt_of_le (lineStep_measure width d ds)
      (h ▸ wrapDrop_measure hasLines chunks)
  · exact lt_of_lt_of_le (lineStep_measure width d ds)
      (h ▸ wrapDrop_measure hasLines chunks)

/-- Model of `textwrap.wrap(text, width)` with CPython's default configuration
(modulo hyphen splitting, see above): munge whitespace, split into chunks,
run the wrapping loop. -/
def pyWrap (width : Nat) (text : List Char) : List (List Char) :=
  wrapLoop width false (splitRuns (munge text))

/-! ## Data model

Notion properties are JSON objects `{"type": t, t: value}`; the model keeps
the type tag and the value.  Rich-text items fetched from the API carry a
`plain_text` field (read by `_extract_title`); items constructed by
`build_rich_text` carry `{"type": "text", "text": {"content": ...}}`. -/

/-- One rich-text segment: `plain_text` as present on fetched items,
`content` (`text.content`) as present on constructed items. -/
structure RichTextItem where
  plain_text : Option String
  content : Option String
deriving DecidableEq

/-- A Notion property as stored on a page: a kind tag plus its current
value.  `date` keeps the `start` field (`none` covers a null date value as
well as a missing/null start, which the program treats identically).
`unsupported` stands for every other kind tag (and a null value), for which
`property_has_value` is false and `build_property_value` builds nothing. -/
inductive NotionProp where
  | title (items : List RichTextItem)
  | rich_text (items : List RichTextItem)
  | multi_select (names : List String)
  | date (start : Option String)
  | unsupported
deriving DecidableEq

/-- A typed value constructed for the update payload
(`{"rich_text": ...}`, `{"title": ...}`, `{"multi_select": [{"name": v}]}`,
`{"date": {"start": s}}`). -/
inductive PropPayload where
  | rich_text (items : List RichTextItem)
  | title (items : List RichTextItem)
  | multi_select (names : List String)
  | date (start : String)
deriving DecidableEq

/-- A raw metadata value handed to `build_property_value`: Python `None`, a
string, or a list of strings. -/
inductive RawValue where
  | none
  | str (s : String)
  | list (xs : List String)
deriving DecidableEq

/-- A page's `properties` mapping (property name → property). -/
abbrev PropMap := List (String × NotionProp)

/-- An update payload (property name → constructed value). -/
abbrev Payload := List (String × PropPayload)

/-- The `PropertyConfig` dataclass: mapping between logical fields and Notion property
names, with the source's dataclass defaults. -/
structure PropertyConfig where
  title : String := "Name"
  authors : Option String := some "Author"
  published : Option String := some "Year"
  venue : Option String := some "Venue"
  citation : Option String := some "Citation"
  abstract : Option String := some "Abstract"

/-- The normalized metadata dict returned by `fetch_metadata`. -/
structure Metadata where
  title : Option String
  authors : List String
  venue : Option String
  year : Option Int
  publication_date : Option String
  citation : Option String
  abstract : Option String

/-! ## Dict primitives (Python semantics on string-keyed dicts) -/

/-- Python `d.get(k)`: the value at the first matching key, if any. -/
def propsGet (ps : List (String × α)) (k : String) : Option α :=
  (ps.find? (fun e => e.1 == k)).map Prod.snd

/-- Python `properties.get(name)` where `name` itself is optional
(`dict.get(None)` finds nothing). -/
def propsGetOpt (ps : List (String × α)) (k : Option String) : Option α :=
  match k with
  | Option.none => Option.none
  | some name => propsGet ps name

/-- Python `d[k] = v`: replace the value at the first matching key in
place, else append the new entry. -/
def dictSet (k : String) (v : α) : List (String × α) → List (String × α)
  | [] => [(k, v)]
  | (k', v') :: rest => if k' = k then (k, v) :: rest else (k', v') :: dictSet k v rest

/-- Python `k in d`. -/
def payloadHas (p : List (String × α)) (k : String) : Bool :=
  p.any (fun e => e.1 == k)

/-- The keys of a dict, in order. -/
def keysOf (p : List (String × α)) : List String :=
  p.map Prod.fst

/-! ## The program's core functions -/

/-- Model of `property_has_value(prop)`: whether a property already contains data;
`title` / `rich_text` / `multi_select` are present iff their list is
nonempty, `date` iff its `start` is a nonempty string, everything else is
never present. -/
def property_has_value : NotionProp → Bool
  | .title items => !items.isEmpty
  | .rich_text items => !items.isEmpty
  | .multi_select names => !names.isEmpty
  | .date start =>
    match start with
    | some s => !(s == "")
    | Option.none => false
  | .unsupported => false

/-- Model of `build_rich_text(value)`: join a list value with `", "`, return `[]`
for `None` or for a string that is empty after stripping, otherwise wrap
the stripped text into chunks of width 1800 (falling back to the whole
text if the wrapper returns nothing) and emit one text segment per chunk. -/
def build_rich_text (value : RawValue) : List RichTextItem :=
  let s : Option (List Char) :=
    match value with
    | .list xs => some (joinSep ", " xs).data
    | .str s => some s.data
    | .none => Option.none
  match s with
  | Option.none => []
  | some cs =>
    let text := pyStrip cs
    if text.isEmpty then []
    else
      let chunks :=
        match pyWrap 1800 text with
        | [] => [text]
        | cks => cks
      chunks.map (fun c => { plain_text := Option.none, content := some (String.mk c) })

/-- Model of `build_property_value(prop, value)`: `None` for a `None`/empty-string
value or a missing property; otherwise dispatch on the property's kind
(`rich_text`/`title` chunked text, `multi_select` comma-split capped tags,
`date` only from a string), `None` for any other kind. -/
def build_property_value (prop : Option NotionProp) (value : RawValue) :
    Option PropPayload :=
  if value = RawValue.none ∨ value = RawValue.str "" then Option.none
  else
    match prop with
    | Option.none => Option.none
    | some p =>
      match p with
      | .rich_text _ => some (.rich_text (build_rich_text value))
      | .title _ => some (.title (build_rich_text value))
      | .multi_select _ =>
        let values :=
          match value with
          | .str s =>
            ((splitOnComma s.data).map (fun part => String.mk (pyStrip part))).filter
              (fun v => !(v == ""))
          | .list xs => xs
          | .none => []
        some (.multi_select (values.take 100))
      | .date _ =>
        match value with
        | .str s => some (.date s)
        | _ => Option.none
      | .unsupported => Option.none

/-- Lift an optional string out of the metadata dict into a raw value
(`None` stays `None`). -/
def rawOfOpt : Option String → RawValue
  | Option.none => RawValue.none
  | some s => RawValue.str s

/-- The `maybe_set` closure inside `_build_update_payload`: skip a missing
or falsy property name, skip a property absent from the page, skip a
property that already has a value, skip a failed construction; otherwise
store the constructed value under the property name.  (The source defers
the construction behind a lambda; for pure values passing the constructed
value directly is observationally identical.) -/
def maybe_set (properties : PropMap) (payload : Payload) (prop_name : Option String)
    (value : Option PropPayload) : Payload :=
  match prop_name with
  | Option.none => payload
  | some name =>
    if name = "" then payload
    else
      match propsGet properties name with
      | Option.none => payload
      | some prop =>
        if property_has_value prop then payload
        else
          match value with
          | Option.none => payload
          | some v => dictSet name v payload

/-- The five `(property name, raw metadata value)` pairs that
`_build_update_payload` passes to `maybe_set`, in source order: authors,
published, venue, citation, abstract. -/
def rolePairs (props : PropertyConfig) (md : Metadata) :
    List (Option String × RawValue) :=
  [(props.authors, RawValue.list md.authors),
   (props.published, rawOfOpt md.publication_date),
   (props.venue, rawOfOpt md.venue),
   (props.citation, rawOfOpt md.citation),
   (props.abstract, rawOfOpt md.abstract)]

/-- The fold underlying `_build_update_payload`: one `maybe_set` call per
`(property name, raw value)` pair, carrying the payload along. -/
def build_fold (properties : PropMap) (pairs : List (Option String × RawValue))
    (init : Payload) : Payload :=
  pairs.foldl
    (fun payload pr =>
      maybe_set properties payload pr.1
        (build_property_value (propsGetOpt properties pr.1) pr.2))
    init

/-- Model of `_build_update_payload(page, metadata)`: the five `maybe_set` calls of
the source, as a fold over the role list in source order. -/
def build_update_payload (props : PropertyConfig) (properties : PropMap)
    (md : Metadata) : Payload :=
  build_fold properties (rolePairs props md) []

/-- Model of `_missing_fields(page)`: the names of tracked, present-on-page
properties that do not yet hold a value, in role order. -/
def missing_fields (props : PropertyConfig) (properties : PropMap) : List String :=
  [props.authors, props.published, props.venue, props.citation, props.abstract].foldl
    (fun missing pn =>
      match pn with
      | Option.none => missing
      | some name =>
        if name = "" then missing
        else
          match propsGet properties name with
          | Option.none => missing
          | some prop =>
            if property_has_value prop then missing else missing ++ [name])
    []

/-- Model of `_extract_title(page)`: empty string when the title property is
missing or not of kind `title`; otherwise the concatenation of the
segments' `plain_text` fields, stripped. -/
def extract_title (props : PropertyConfig) (properties : PropMap) : String :=
  match propsGet properties props.title with
  | some (.title items) =>
    String.mk (pyStrip (items.map (fun it => (it.plain_text.getD "").data)).flatten)
  | some _ => ""
  | Option.none => ""

/-- The per-record body of `run`: skip a record with an empty title, skip
when nothing is missing (no lookup issued), skip when the lookup finds
nothing, otherwise build the update payload. -/
def reconcile (props : PropertyConfig) (properties : PropMap)
    (lookup : String → Option Metadata) : Payload :=
  let title := extract_title props properties
  if title = "" then []
  else if (missing_fields props properties).isEmpty then []
  else
    match lookup title with
    | Option.none => []
    | some md => build_update_payload props properties md

/-- Modelled from the spec: the record-sink API persists a constructed
typed value into the page's property of the same name (the source performs
this through the external PATCH endpoint, which is out of scope of the
code under `src/`).  The stored property carries the constructed value
under the same kind tag. -/
def payloadToProp : PropPayload → NotionProp
  | .rich_text items => .rich_text items
  | .title items => .title items
  | .multi_select names => .multi_select names
  | .date s => .date (some s)

/-- Modelled from the spec: applying an update payload to a page's
properties, entry by entry in payload order. -/
def apply_payload (properties : PropMap) (payload : Payload) : PropMap :=
  payload.foldl (fun ps e => dictSet e.1 (payloadToProp e.2) ps) properties

/-- Reading a constructed plain-text value back: concatenate its segments'
`text.content` strings. -/
def decode_segments (items : List RichTextItem) : String :=
  String.join (items.map (fun it => it.content.getD ""))

/-! ## Metadata lookup normalization and citation formatting -/

/-- The author clause of `format_citation`: first three authors joined with
`", "`, `" et al."` appended when there are more than three in total,
`"Unknown"` when there are none. -/
def author_text (authors : List String) : String :=
  if (authors.take 3).isEmpty then "Unknown"
  else if authors.length ≤ 3 then joinSep ", " (authors.take 3)
  else joinSep ", " (authors.take 3) ++ " et al."

/-- The year clause: `" (YEAR)"` for a truthy year (Python `if year`, so
year `0` counts as absent). -/
def year_part : Option Int → String
  | some y => if y = 0 then "" else " (" ++ toString y ++ ")"
  | Option.none => ""

/-- The venue clause: `" VENUE."` for a truthy venue (a `None` or empty
venue is omitted). -/
def venue_part : Option String → String
  | some v => if v = "" then "" else " " ++ v ++ "."
  | Option.none => ""

/-- Model of `format_citation(title, authors, year, venue)`: `None` for a falsy
title, else `"{authors}{year_part}. {title}.{venue_part}"` stripped. -/
def format_citation (title : Option String) (authors : List String)
    (year : Option Int) (venue : Option String) : Option String :=
  match title with
  | Option.none => Option.none
  | some t =>
    if t = "" then Option.none
    else some (pyStripStr (author_text authors ++ year_part year ++ ". " ++ t ++ "."
        ++ venue_part venue))

/-- One raw Semantic Scholar search result.  `title` distinguishes a
missing key (outer `none`, where `paper.get("title", title)` falls back to
the query) from a present-but-null value (`some none`).  `authors` holds
each author object's `name` field.  `publicationVenueName` is
`paper.get("publicationVenue", {}).get("name")`. -/
structure SearchPaper where
  title : Option (Option String)
  authors : List (Option String)
  year : Option Int
  venue : Option String
  publicationVenueName : Option String
  publicationDate : Option String
  abstract : Option String

/-- Python `a or b` on optional strings: `b` whenever `a` is `None` or
empty, else `a`. -/
def pyOrStr (a b : Option String) : Option String :=
  match a with
  | some s => if s = "" then b else some s
  | Option.none => b

/-- The author extraction of `fetch_metadata`: keep authors whose `name`
field is truthy (present and nonempty), stripped, in order. -/
def extract_authors (paper : SearchPaper) : List String :=
  (paper.authors.filter
      (fun n =>
        match n with
        | some s => !(s == "")
        | Option.none => false)).map
    (fun n => pyStripStr (n.getD ""))

/-- The normalization of the top search result inside `fetch_metadata`:
authors filtered and stripped, venue from the direct field or the nested
venue object, publication date from the explicit field else derived from a
truthy year as `"{year}-01-01"`, citation generated from the paper's own
title, and the result title defaulting to the query only when the key is
absent. -/
def normalize_paper (query : String) (paper : SearchPaper) : Metadata :=
  let authors := extract_authors paper
  let venue := pyOrStr paper.venue paper.publicationVenueName
  let year := paper.year
  let publication_date :=
    pyOrStr paper.publicationDate
      (match year with
       | some y => if y = 0 then Option.none else some (toString y ++ "-01-01")
       | Option.none => Option.none)
  let ownTitle : Option String :=
    match paper.title with
    | Option.none => Option.none
    | some v => v
  let citation := format_citation ownTitle authors year venue
  { title :=
      match paper.title with
      | Option.none => some query
      | some v => v
    authors := authors
    venue := venue
    year := year
    publication_date := publication_date
    citation := citation
    abstract := paper.abstract }

/-- The post-transport part of `fetch_metadata`: `None` for an empty
result list, else the normalized top result.  (The HTTP request itself and
a non-success status — which also yield `None` — are transport plumbing
outside the embedded core.) -/
def fetch_metadata_core (query : String) (papers : List SearchPaper) :
    Option Metadata :=
  match papers with
  | [] => Option.none
  | paper :: _ => some (normalize_paper query paper)

/-! ## Dict lemmas -/

theorem propsGet_cons (a : String) (b : α) (rest : List (String × α)) (k : String) :
    propsGet ((a, b) :: rest) k = if a = k then some b else propsGet rest k := by
  by_cases h : a = k
  · simp [propsGet, List.find?, h]
  · have hbe : (a == k) = false := by simp [h]
    simp [propsGet, List.find?, hbe, h]

theorem payloadHas_cons (a : String) (b : α) (rest : List (String × α)) (k : String) :
    payloadHas ((a, b) :: rest) k = ((a == k) || payloadHas rest k) := by
  simp [payloadHas]

theorem payloadHas_of_propsGet (p : List (String × α)) (k : String) (v : α)
    (h : propsGet p k = some v) : payloadHas p k = true := by
  induction p with
  | nil => simp [propsGet] at h
  | cons e rest ih =>
    rcases e with ⟨a, b⟩
    rw [propsGet_cons] at h
    rw [payloadHas_cons]
    by_cases hk : a = k
    · simp [hk]
    · simp only [hk, if_false] at h
      simp [hk, ih h]

theorem propsGet_eq_none_of_not_has (p : List (String × α)) (k : String)
    (h : payloadHas p k = false) : propsGet p k = Option.none := by
  cases hg : propsGet p k with
  | none => rfl
  | some v => rw [payloadHas_of_propsGet p k v hg] at h; cases h

theorem payloadHas_eq_false_of_get_none (p : List (String × α)) (k : String)
    (h : propsGet p k = Option.none) : payloadHas p k = false := by
  induction p with
  | nil => rfl
  | cons e rest ih =>
    rcases e with ⟨a, b⟩
    rw [propsGet_cons] at h
    rw [payloadHas_cons]
    by_cases hk : a = k
    · simp [hk] at h
    · simp only [hk, if_false] at h
      simp [hk, ih h]

theorem propsGet_dictSet (k k' : String) (v : α) (ps : List (String × α)) :
    propsGet (dictSet k v ps) k' = if k' = k then some v else propsGet ps k' := by
  induction ps with
  | nil =>
    by_cases h : k' = k
    · simp [dictSet, propsGet, List.find?, h]
    · have hbe : (k == k') = false := by
        simp; exact fun hh => h hh.symm
      simp [dictSet, propsGet, List.find?, h, hbe]
  | cons e rest ih =>
    rcases e with ⟨a, b⟩
    by_cases hak : a = k
    · have hstep : dictSet k v ((a, b) :: rest) = (k, v) :: rest := by
        simp [dictSet, hak]
      rw [hstep, propsGet_cons, propsGet_cons]
      by_cases h : k' = k
      · simp [h]
      · have h2 : ¬ k = k' := fun hh => h hh.symm
        have h3 : ¬ a = k' := by rw [hak]; exact h2
        simp [h, h2, h3]
    · have hstep : dictSet k v ((a, b) :: rest) = (a, b) :: dictSet k v rest := by
        simp [dictSet, hak]
      rw [hstep, propsGet_cons, propsGet_cons, ih]
      by_cases h1 : a = k'
      · have h2 : ¬ k' = k := by rw [← h1]; exact hak
        simp [h1, h2]
      · simp [h1]

theorem payloadHas_dictSet (k k' : String) (v : α) (ps : List (String × α)) :
    payloadHas (dictSet k v ps) k' = ((k == k') || payloadHas ps k') := by
  induction ps with
  | nil => simp [dictSet, payloadHas]
  | cons e rest ih =>
    rcases e with ⟨a, b⟩
    by_cases hak : a = k
    · subst hak
      simp [dictSet, payloadHas_cons]
    · rw [show dictSet k v ((a, b) :: rest) = (a, b) :: dictSet k v rest by
        simp [dictSet, hak]]
      rw [payloadHas_cons, payloadHas_cons, ih]
      cases h1 : (a == k') <;> cases h2 : (k == k') <;> simp

theorem keysOf_dictSet (k : String) (v : α) (ps : List (String × α)) :
    keysOf (dictSet k v ps) =
      if payloadHas ps k then keysOf ps else keysOf ps ++ [k] := by
  induction ps with
  | nil => simp [dictSet, keysOf, payloadHas]
  | cons e rest ih =>
    rcases e with ⟨a, b⟩
    rw [payloadHas_cons]
    by_cases hak : a = k
    · subst hak
      simp [dictSet, keysOf]
    · rw [show dictSet k v ((a, b) :: rest) = (a, b) :: dictSet k v rest by
        simp [dictSet, hak]]
      have hbe : (a == k) = false := by simp [hak]
      simp only [keysOf, List.map_cons, hbe, Bool.false_or] at *
      rw [ih]
      by_cases hh : payloadHas rest k <;> simp [hh]

theorem nodup_keys_dictSet (k : String) (v : α) (ps : List (String × α))
    (h : (keysOf ps).Nodup) : (keysOf (dictSet k v ps)).Nodup := by
  rw [keysOf_dictSet]
  cases hh : payloadHas ps k with
  | true => simpa using h
  | false =>
    have hnot : k ∉ keysOf ps := by
      intro hmem
      rcases List.mem_map.mp hmem with ⟨e, he, hfst⟩
      have hhas : payloadHas ps k = true := by
        simp only [payloadHas, List.any_eq_true]
        exact ⟨e, he, by simp [hfst]⟩
      rw [hhas] at hh; cases hh
    simp [List.nodup_append, h, hnot]

theorem apply_payload_nil (ps : PropMap) : apply_payload ps [] = ps := rfl

theorem apply_payload_cons (ps : PropMap) (n : String) (v : PropPayload)
    (rest : Payload) :
    apply_payload ps ((n, v) :: rest) =
      apply_payload (dictSet n (payloadToProp v) ps) rest := rfl

theorem propsGet_apply_payload (payload : Payload) (hnd : (keysOf payload).Nodup)
    (ps : PropMap) (k : String) :
    propsGet (apply_payload ps payload) k =
      match propsGet payload k with
      | some v => some (payloadToProp v)
      | Option.none => propsGet ps k := by
  induction payload generalizing ps with
  | nil => simp [apply_payload, propsGet]
  | cons e rest ih =>
    rcases e with ⟨n, v⟩
    have h2 := hnd
    simp only [keysOf, List.map_cons, List.nodup_cons] at h2
    have hnotin : n ∉ keysOf rest := by simpa [keysOf] using h2.1
    have hnd' : (keysOf rest).Nodup := by simpa [keysOf] using h2.2
    rw [apply_payload_cons, ih hnd', propsGet_cons]
    by_cases hk : n = k
    · have hrest : propsGet rest k = Option.none := by
        apply propsGet_eq_none_of_not_has
        cases hhh : payloadHas rest k with
        | false => rfl
        | true =>
          exfalso
          simp only [payloadHas, List.any_eq_true] at hhh
          rcases hhh with ⟨e2, he2, hee⟩
          apply hnotin
          rw [hk]
          exact List.mem_map.mpr ⟨e2, he2, by simpa using hee⟩
      simp [hk, hrest, propsGet_dictSet]
    · cases hr : propsGet rest k with
      | none =>
        simp [hk, hr, propsGet_dictSet, show ¬ k = n from fun hh => hk hh.symm]
      | some w => simp [hk, hr]

/-! ## Payload construction lemmas -/

theorem payloadHas_maybe_set_mono (properties : PropMap) (payload : Payload)
    (n : Option String) (bv : Option PropPayload) (k : String)
    (h : payloadHas payload k = true) :
    payloadHas (maybe_set properties payload n bv) k = true := by
  cases n with
  | none => exact h
  | some name =>
    simp only [maybe_set]
    by_cases hname : name = ""
    · simp [hname, h]
    · simp only [hname, if_false]
      cases propsGet properties name with
      | none => exact h
      | some prop =>
        by_cases hv : property_has_value prop
        · simp [hv, h]
        · have hb : property_has_value prop = false := by simpa using hv
          simp only [hb, Bool.false_eq_true, if_false]
          cases bv with
          | none => exact h
          | some v => rw [payloadHas_dictSet]; simp [h]

theorem payloadHas_maybe_set_cases (properties : PropMap) (payload : Payload)
    (n : Option String) (bv : Option PropPayload) (k : String)
    (h : payloadHas (maybe_set properties payload n bv) k = true) :
    payloadHas payload k = true ∨
      ∃ prop, propsGet properties k = some prop ∧ property_has_value prop = false := by
  cases n with
  | none => exact Or.inl h
  | some name =>
    simp only [maybe_set] at h
    by_cases hname : name = ""
    · simp [hname] at h; exact Or.inl h
    · simp only [hname, if_false] at h
      cases hget : propsGet properties name with
      | none => rw [hget] at h; exact Or.inl h
      | some prop =>
        rw [hget] at h
        by_cases hv : property_has_value prop
        · simp [hv] at h; exact Or.inl h
        · have hb : property_has_value prop = false := by simpa using hv
          simp only [hb, Bool.false_eq_true, if_false] at h
          cases bv with
          | none => exact Or.inl h
          | some v =>
            rw [payloadHas_dictSet] at h
            cases hnk : (name == k) with
            | false => rw [hnk] at h; simp at h; exact Or.inl h
            | true =>
              have : name = k := by simpa using hnk
              subst this
              exact Or.inr ⟨prop, hget, by simpa using hv⟩

theorem payloadHas_build_fold_mono (properties : PropMap)
    (pairs : List (Option String × RawValue)) (init : Payload) (k : String)
    (h : payloadHas init k = true) :
    payloadHas (build_fold properties pairs init) k = true := by
  induction pairs generalizing init with
  | nil => exact h
  | cons pr rest ih =>
    exact ih _ (payloadHas_maybe_set_mono properties init pr.1 _ k h)

theorem payloadHas_build_fold_cases (properties : PropMap)
    (pairs : List (Option String × RawValue)) (init : Payload) (k : String)
    (h : payloadHas (build_fold properties pairs init) k = true) :
    payloadHas init k = true ∨
      ∃ prop, propsGet properties k = some prop ∧ property_has_value prop = false := by
  induction pairs generalizing init with
  | nil => exact Or.inl h
  | cons pr rest ih =>
    rcases ih _ h with h1 | h2
    · exact payloadHas_maybe_set_cases properties init pr.1 _ k h1
    · exact Or.inr h2

theorem maybe_set_adds (properties : PropMap) (payload : Payload) (name : String)
    (prop : NotionProp) (pv : PropPayload)
    (hget : propsGet properties name = some prop)
    (hval : property_has_value prop = false) (hname : name ≠ "") :
    payloadHas (maybe_set properties payload (some name) (some pv)) name = true := by
  simp only [maybe_set, hname, if_false, hget, hval, Bool.false_eq_true]
  rw [payloadHas_dictSet]
  simp

theorem build_fold_first_none (properties : PropMap) :
    ∀ (pairs : List (Option String × RawValue)) (init : Payload)
      (name : String) (raw : RawValue) (prop : NotionProp),
      (some name, raw) ∈ pairs →
      propsGet properties name = some prop →
      property_has_value prop = false →
      name ≠ "" →
      payloadHas (build_fold properties pairs init) name = false →
      build_property_value (some prop) raw = Option.none := by
  intro pairs
  induction pairs with
  | nil => intro init name raw prop hmem; cases hmem
  | cons pr rest ih =>
    intro init name raw prop hmem hget hval hname hfold
    rcases List.mem_cons.mp hmem with hhd | htl
    · subst hhd
      cases hbv : build_property_value (propsGetOpt properties (some name)) raw with
      | none => simpa [propsGetOpt, hget] using hbv
      | some pv =>
        exfalso
        have hstep :
            payloadHas (maybe_set properties init (some name)
              (build_property_value (propsGetOpt properties (some name)) raw)) name
              = true := by
          rw [hbv]
          exact maybe_set_adds properties init name prop pv hget hval hname
        have := payloadHas_build_fold_mono properties rest _ name hstep
        rw [show build_fold properties ((some name, raw) :: rest) init =
            build_fold properties rest
              (maybe_set properties init (some name)
                (build_property_value (propsGetOpt properties (some name)) raw))
          from rfl] at hfold
        rw [this] at hfold
        cases hfold
    · exact ih _ name raw prop htl hget hval hname hfold

theorem nodup_keys_maybe_set (properties : PropMap) (payload : Payload)
    (n : Option String) (bv : Option PropPayload)
    (h : (keysOf payload).Nodup) :
    (keysOf (maybe_set properties payload n bv)).Nodup := by
  cases n with
  | none => exact h
  | some name =>
    simp only [maybe_set]
    by_cases hname : name = ""
    · simp [hname, h]
    · simp only [hname, if_false]
      cases propsGet properties name with
      | none => exact h
      | some prop =>
        by_cases hv : property_has_value prop
        · simp [hv, h]
        · have hb : property_has_value prop = false := by simpa using hv
          simp only [hb, Bool.false_eq_true, if_false]
          cases bv with
          | none => exact h
          | some v => exact nodup_keys_dictSet name v payload h

theorem nodup_keys_build_fold (properties : PropMap)
    (pairs : List (Option String × RawValue)) (init : Payload)
    (h : (keysOf init).Nodup) :
    (keysOf (build_fold properties pairs init)).Nodup := by
  induction pairs generalizing init with
  | nil => exact h
  | cons pr rest ih =>
    exact ih _ (nodup_keys_maybe_set properties init pr.1 _ h)

theorem nodup_keys_build_update_payload (props : PropertyConfig)
    (properties : PropMap) (md : Metadata) :
    (keysOf (build_update_payload props properties md)).Nodup :=
  nodup_keys_build_fold properties (rolePairs props md) [] List.nodup_nil

/-- Core of claim C1: a property that already holds a value never appears
in the payload assembled by the fold. -/
theorem payloadHas_build_update_payload_false (props : PropertyConfig)
    (properties : PropMap) (md : Metadata) (name : String) (prop : NotionProp)
    (hget : propsGet properties name = some prop)
    (hval : property_has_value prop = true) :
    payloadHas (build_update_payload props properties md) name = false := by
  cases hfold : payloadHas (build_update_payload props properties md) name with
  | false => rfl
  | true =>
    exfalso
    rcases payloadHas_build_fold_cases properties (rolePairs props md) [] name hfold
      with h1 | ⟨prop2, hget2, hval2⟩
    · cases h1
    · rw [hget] at hget2
      injection hget2 with hpp
      rw [← hpp] at hval2
      rw [hval] at hval2
      cases hval2

/-! ## Claims C1, C3, C5, C7 -/

/-- C1: for every record and every field of that record that already holds
a value (per-kind presence: title/rich-text/multi-select non-empty, date
has a start, as decided by `property_has_value`), the update payload built
by the reconciler never contains that field's name, so an existing value
is never overwritten — both for the payload builder itself and for the
whole per-record reconciliation step, whatever the lookup returns. -/
theorem C1_filled_fields_never_in_payload (props : PropertyConfig)
    (properties : PropMap) (md : Metadata) (name : String) (prop : NotionProp)
    (hget : propsGet properties name = some prop)
    (hval : property_has_value prop = true) :
    payloadHas (build_update_payload props properties md) name = false ∧
      ∀ lookup : String → Option Metadata,
        payloadHas (reconcile props properties lookup) name = false := by
  refine ⟨payloadHas_build_update_payload_false props properties md name prop hget hval, ?_⟩
  intro lookup
  by_cases h1 : extract_title props properties = ""
  · simp [reconcile, h1, payloadHas]
  · by_cases h2 : (missing_fields props properties).isEmpty
    · simp [reconcile, h1, h2, payloadHas]
    · cases h3 : lookup (extract_title props properties) with
      | none => simp [reconcile, h1, h2, h3, payloadHas]
      | some md2 =>
        simp only [reconcile, h1, if_false, h2, h3]
        exact payloadHas_build_update_payload_false props properties md2 name prop hget hval

/-- Witness for C1 at a concrete record: the `Author` field already holds
a tag, and the built payload does not mention it. -/
theorem C1_filled_fields_never_in_payload_witness :
    propsGet [("Author", NotionProp.multi_select ["X"])] "Author"
        = some (NotionProp.multi_select ["X"]) ∧
      property_has_value (NotionProp.multi_select ["X"]) = true ∧
      payloadHas
        (build_update_payload {} [("Author", NotionProp.multi_select ["X"])]
          { title := Option.none, authors := ["A"], venue := Option.none,
            year := Option.none, publication_date := Option.none,
            citation := Option.none, abstract := Option.none })
        "Author" = false :=
  ⟨by decide, by decide,
    (C1_filled_fields_never_in_payload {} [("Author", NotionProp.multi_select ["X"])]
      { title := Option.none, authors := ["A"], venue := Option.none,
        year := Option.none, publication_date := Option.none,
        citation := Option.none, abstract := Option.none }
      "Author" (NotionProp.multi_select ["X"]) (by decide) (by decide)).1⟩

/-- C3: for every record whose tracked, present-on-record fields are all
already populated (`_missing_fields` finds nothing), the reconciler
produces an empty payload whatever function is supplied as the lookup —
the result does not depend on the lookup, which is exactly what "no lookup
call is performed" means for the pure per-record step. -/
theorem C3_fully_populated_empty_payload (props : PropertyConfig)
    (properties : PropMap) (lookup : String → Option Metadata)
    (h : missing_fields props properties = []) :
    reconcile props properties lookup = [] := by
  by_cases h1 : extract_title props properties = ""
  · simp [reconcile, h1]
  · simp [reconcile, h1, h]

/-- Witness for C3 at a concrete fully-filled record (with a lookup that
would return metadata if it were consulted). -/
theorem C3_fully_populated_empty_payload_witness :
    missing_fields {}
        [("Name", NotionProp.title [{ plain_text := some "T", content := Option.none }]),
         ("Author", NotionProp.multi_select ["A"]),
         ("Year", NotionProp.date (some "2020-01-01")),
         ("Venue", NotionProp.rich_text [{ plain_text := Option.none, content := some "V" }]),
         ("Citation", NotionProp.rich_text [{ plain_text := Option.none, content := some "C" }]),
         ("Abstract", NotionProp.rich_text [{ plain_text := Option.none, content := some "A" }])]
      = [] ∧
    reconcile {}
        [("Name", NotionProp.title [{ plain_text := some "T", content := Option.none }]),
         ("Author", NotionProp.multi_select ["A"]),
         ("Year", NotionProp.date (some "2020-01-01")),
         ("Venue", NotionProp.rich_text [{ plain_text := Option.none, content := some "V" }]),
         ("Citation", NotionProp.rich_text [{ plain_text := Option.none, content := some "C" }]),
         ("Abstract", NotionProp.rich_text [{ plain_text := Option.none, content := some "A" }])]
        (fun _ => some
          { title := some "T", authors := ["A"], venue := some "V",
            year := some 2020, publication_date := some "2020-01-01",
            citation := some "C", abstract := some "L" }) = [] :=
  ⟨by decide,
    C3_fully_populated_empty_payload {} _ _ (by decide)⟩

/-- C5: the typed-value constructor returns absent (no value) whenever the
raw value is Python-empty (`None` or the empty string) or the field kind
is not one of the supported kinds (plain-text, title, multi-select tag
list, date); in particular unsupported kinds are never written. -/
theorem C5_constructor_absent_cases (p : NotionProp) (v : RawValue)
    (h : v = RawValue.none ∨ v = RawValue.str "" ∨ p = NotionProp.unsupported) :
    build_property_value (some p) v = Option.none := by
  rcases h with h | h | h
  · simp [build_property_value, h]
  · simp [build_property_value, h]
  · by_cases hv : v = RawValue.none ∨ v = RawValue.str ""
    · simp [build_property_value, hv]
    · simp [build_property_value, hv, h]

/-- Witness for C5 at concrete inputs: a `None` value on a rich-text field
and a nonempty value on an unsupported field both produce nothing. -/
theorem C5_constructor_absent_cases_witness :
    build_property_value (some (NotionProp.rich_text [])) RawValue.none = Option.none ∧
      build_property_value (some NotionProp.unsupported) (RawValue.str "x") = Option.none :=
  ⟨C5_constructor_absent_cases (NotionProp.rich_text []) RawValue.none (Or.inl rfl),
    C5_constructor_absent_cases NotionProp.unsupported (RawValue.str "x")
      (Or.inr (Or.inr rfl))⟩

/-- C7: multi-select construction — a string raw value is split on commas,
trimmed, with empty entries dropped (the spec's example evaluates as
stated); a sequence raw value is used as-is up to the cap; and every
constructed tag list has at most 100 entries, with each tag from a string
source nonempty. -/
theorem C7_multi_select_construction :
    (build_property_value (some (NotionProp.multi_select []))
        (RawValue.str "nlp, systems , , ml")
      = some (PropPayload.multi_select ["nlp", "systems", "ml"])) ∧
    (∀ (m : List String) (xs : List String),
      build_property_value (some (NotionProp.multi_select m)) (RawValue.list xs)
        = some (PropPayload.multi_select (xs.take 100))) ∧
    (∀ (po : Option NotionProp) (v : RawValue) (ns : List String),
      build_property_value po v = some (PropPayload.multi_select ns) →
        ns.length ≤ 100) ∧
    (∀ (m : List String) (s : String), s ≠ "" →
      ∃ ns, build_property_value (some (NotionProp.multi_select m)) (RawValue.str s)
          = some (PropPayload.multi_select ns) ∧
        ns.length ≤ 100 ∧ ∀ n ∈ ns, n ≠ "") := by
  refine ⟨by decide, ?_, ?_, ?_⟩
  · intro m xs
    simp [build_property_value]
  · intro po v ns h
    by_cases hv : v = RawValue.none ∨ v = RawValue.str ""
    · simp [build_property_value, hv] at h
    · simp only [build_property_value, hv, if_false] at h
      cases po with
      | none => cases h
      | some p =>
        cases p with
        | title items => simp at h
        | rich_text items => simp at h
        | multi_select names =>
          cases v with
          | none => exact absurd (Or.inl rfl) hv
          | str s =>
            simp only [Option.some_inj, PropPayload.multi_select.injEq] at h
            rw [← h, List.length_take]
            omega
          | list xs =>
            simp only [Option.some_inj, PropPayload.multi_select.injEq] at h
            rw [← h, List.length_take]
            omega
        | date start => cases v <;> simp_all
        | unsupported => cases h
  · intro m s hs
    have hv : ¬ (RawValue.str s = RawValue.none ∨ RawValue.str s = RawValue.str "") := by
      simp [hs]
    refine ⟨(((splitOnComma s.data).map (fun part => String.mk (pyStrip part))).filter
        (fun v => !(v == ""))).take 100, ?_, ?_, ?_⟩
    · simp [build_property_value, hv, hs]
    · rw [List.length_take]; omega
    · intro n hn
      have hn2 := List.mem_of_mem_take hn
      have h3 := (List.mem_filter.mp hn2).2
      simpa using h3

/-- Witness for C7 at a concrete string input, discharging the
nonemptiness hypothesis. -/
theorem C7_multi_select_construction_witness :
    ∃ ns, build_property_value (some (NotionProp.multi_select [])) (RawValue.str "a,b")
        = some (PropPayload.multi_select ns) ∧
      ns.length ≤ 100 ∧ ∀ n ∈ ns, n ≠ "" :=
  C7_multi_select_construction.2.2.2 [] "a,b" (by decide)

/-! ## Claim C6: citation formatting -/

/-- C6: `format_citation` returns none exactly when the title is absent or
empty; otherwise it produces the template
`"{authors}{year clause}. {title}.{venue clause}"` trimmed, where the
author clause joins the first three authors with `", "`, appends
`" et al."` when there are more than three in total and is the literal
`"Unknown"` for zero authors; the two scenario examples of the spec
evaluate exactly as stated. -/
theorem C6_format_citation_behaviour :
    (∀ (a : List String) (y : Option Int) (v : Option String),
        format_citation Option.none a y v = Option.none) ∧
    (∀ (a : List String) (y : Option Int) (v : Option String),
        format_citation (some "") a y v = Option.none) ∧
    (∀ (t : String) (a : List String) (y : Option Int) (v : Option String), t ≠ "" →
        format_citation (some t) a y v
          = some (pyStripStr (author_text a ++ year_part y ++ ". " ++ t ++ "."
              ++ venue_part v))) ∧
    (author_text [] = "Unknown") ∧
    (∀ a : List String, a ≠ [] → a.length ≤ 3 → author_text a = joinSep ", " a) ∧
    (∀ a : List String, 3 < a.length →
        author_text a = joinSep ", " (a.take 3) ++ " et al.") ∧
    (format_citation (some "Attention Is All You Need") ["A", "B", "C", "D"]
        (some 2017) (some "NeurIPS")
      = some "A, B, C et al. (2017). Attention Is All You Need. NeurIPS.") ∧
    (format_citation (some "X") [] Option.none Option.none = some "Unknown. X.") := by
  refine ⟨?_, ?_, ?_, by decide, ?_, ?_, by decide, by decide⟩
  · intro a y v; rfl
  · intro a y v; simp [format_citation]
  · intro t a y v ht; simp [format_citation, ht]
  · intro a h1 h2
    have htake : a.take 3 = a := List.take_of_length_le h2
    have hne : a.isEmpty = false := by
      cases a
      · exact absurd rfl h1
      · rfl
    simp [author_text, htake, hne, h2]
  · intro a h3
    have hne : (a.take 3).isEmpty = false := by
      have hlen : (a.take 3).length = 3 := by
        rw [List.length_take]; omega
      cases hh : a.take 3 with
      | nil => rw [hh] at hlen; simp at hlen
      | cons b bs => rfl
    have hgt : ¬ a.length ≤ 3 := by omega
    simp [author_text, hne, hgt]

/-- Witness for C6: the generic template instantiated at a concrete
nonempty title. -/
theorem C6_format_citation_behaviour_witness :
    format_citation (some "T") ["A"] Option.none Option.none
      = some (pyStripStr (author_text ["A"] ++ year_part Option.none ++ ". " ++ "T" ++ "."
          ++ venue_part Option.none)) :=
  C6_format_citation_behaviour.2.2.1 "T" ["A"] Option.none Option.none (by decide)

/-! ## Claims C8 and C10: lookup normalization -/

/-- A search result with no explicit publication date and the (degenerate)
integer year 0, on which the code's Python-truthiness test treats the year
as absent. -/
def c8paperA : SearchPaper :=
  { title := some (some "T"), authors := [], year := some 0,
    venue := Option.none, publicationVenueName := Option.none,
    publicationDate := Option.none, abstract := Option.none }

/-- A search result whose explicit publication date is present but the
empty string, which the code's `or` ignores in favour of the year. -/
def c8paperB : SearchPaper :=
  { title := some (some "T"), authors := [], year := some 2019,
    venue := Option.none, publicationVenueName := Option.none,
    publicationDate := some "", abstract := Option.none }

/-- C8 counterexample: with year 0 and no date the claim predicts
`"0-01-01"` but the code yields none; with an explicit (empty-string) date
present the claim predicts that date but the code yields the year-derived
string instead. -/
theorem C8_publication_date_counterexample :
    ((normalize_paper "Q" c8paperA).publication_date = Option.none ∧
      c8paperA.year = some 0 ∧ c8paperA.publicationDate = Option.none ∧
      (Option.none : Option String) ≠ some (toString (0 : Int) ++ "-01-01")) ∧
    ((normalize_paper "Q" c8paperB).publication_date = some "2019-01-01" ∧
      c8paperB.publicationDate = some "" ∧
      (some "2019-01-01" : Option String) ≠ some "") := by
  refine ⟨⟨by decide, by decide, by decide, by decide⟩,
    ⟨by decide, by decide, by decide⟩⟩

/-- C8 (amended): the canonical metadata's publication date equals the
explicit date field when that field is present and non-empty; otherwise it
is `"{year}-01-01"` when a nonzero integer year is present, and none when
the year is absent or zero (Python truthiness governs both fallbacks). -/
theorem C8_publication_date_derivation (query : String) (paper : SearchPaper) :
    (∀ d : String, paper.publicationDate = some d → d ≠ "" →
        (normalize_paper query paper).publication_date = some d) ∧
    ((paper.publicationDate = Option.none ∨ paper.publicationDate = some "") →
      (∀ y : Int, paper.year = some y → y ≠ 0 →
          (normalize_paper query paper).publication_date
            = some (toString y ++ "-01-01")) ∧
      ((paper.year = Option.none ∨ paper.year = some 0) →
          (normalize_paper query paper).publication_date = Option.none)) := by
  constructor
  · intro d hd hne
    simp [normalize_paper, pyOrStr, hd, hne]
  · intro hdate
    constructor
    · intro y hy hy0
      rcases hdate with hd | hd <;>
        simp [normalize_paper, pyOrStr, hd, hy, hy0]
    · intro hyear
      rcases hdate with hd | hd <;> rcases hyear with hy | hy <;>
        simp [normalize_paper, pyOrStr, hd, hy]

/-- Witness for C8: the spec's own example, year 2019 with no explicit
date, derives `"2019-01-01"`. -/
theorem C8_publication_date_derivation_witness :
    (normalize_paper "Q"
        { title := some (some "T"), authors := [], year := some 2019,
          venue := Option.none, publicationVenueName := Option.none,
          publicationDate := Option.none, abstract := Option.none }).publication_date
      = some (toString (2019 : Int) ++ "-01-01") :=
  ((C8_publication_date_derivation "Q"
      { title := some (some "T"), authors := [], year := some 2019,
        venue := Option.none, publicationVenueName := Option.none,
        publicationDate := Option.none, abstract := Option.none }).2
    (Or.inl rfl)).1 2019 rfl (by decide)

/-- A search result whose title key is present but holds the empty string:
`paper.get("title", query)` returns that empty string, not the query. -/
def c10paper : SearchPaper :=
  { title := some (some ""), authors := [some "A"], year := some 2020,
    venue := some "V", publicationVenueName := Option.none,
    publicationDate := Option.none, abstract := Option.none }

/-- C10 counterexample: for a result whose title field is present but
empty, the metadata's title is that empty string — not the queried title,
as the claim asserts for "missing or empty" titles (the `dict.get` default
only applies to a missing key). -/
theorem C10_title_fallback_counterexample :
    (normalize_paper "Q" c10paper).title = some "" ∧
      (some "" : Option String) ≠ some "Q" ∧
      (normalize_paper "Q" c10paper).citation = Option.none := by
  refine ⟨by decide, by decide, by decide⟩

/-- C10 (amended): the queried-title fallback applies only when the title
key is absent from the search result; a present-but-null or
present-but-empty title is kept as-is.  In all three situations the
generated citation is none, because it is formatted from the result's own
title rather than the fallback. -/
theorem C10_title_fallback_only_when_key_absent (query : String)
    (paper : SearchPaper) :
    (paper.title = Option.none →
        (normalize_paper query paper).title = some query ∧
        (normalize_paper query paper).citation = Option.none) ∧
    (paper.title = some Option.none →
        (normalize_paper query paper).title = Option.none ∧
        (normalize_paper query paper).citation = Option.none) ∧
    (paper.title = some (some "") →
        (normalize_paper query paper).title = some "" ∧
        (normalize_paper query paper).citation = Option.none) := by
  refine ⟨?_, ?_, ?_⟩ <;> intro ht <;>
    simp [normalize_paper, ht, format_citation]

/-- Witness for C10: a result with the title key absent carries the query
as its title and no citation. -/
theorem C10_title_fallback_only_when_key_absent_witness :
    (normalize_paper "Q"
        { title := Option.none, authors := [some "A"], year := some 2020,
          venue := some "V", publicationVenueName := Option.none,
          publicationDate := Option.none, abstract := Option.none }).title = some "Q" ∧
      (normalize_paper "Q"
        { title := Option.none, authors := [some "A"], year := some 2020,
          venue := some "V", publicationVenueName := Option.none,
          publicationDate := Option.none, abstract := Option.none }).citation
        = Option.none :=
  (C10_title_fallback_only_when_key_absent "Q"
      { title := Option.none, authors := [some "A"], year := some 2020,
        venue := some "V", publicationVenueName := Option.none,
        publicationDate := Option.none, abstract := Option.none }).1 rfl

/-! ## Claim C9: whitespace-only and empty-list plain-text values -/

/-- A record with a nonempty title and an empty abstract rich-text field,
for exercising the degenerate-value path. -/
def c9page : PropMap :=
  [("Name", NotionProp.title [{ plain_text := some "T", content := Option.none }]),
   ("Abstract", NotionProp.rich_text [])]

/-- Metadata whose abstract is a single space (whitespace-only). -/
def c9md : Metadata :=
  { title := some "T", authors := [], venue := Option.none, year := Option.none,
    publication_date := Option.none, citation := Option.none, abstract := some " " }

theorem pyStrip_eq_nil_of_all_space (l : List Char)
    (h : ∀ c ∈ l, pyIsSpace c = true) : pyStrip l = [] := by
  have h1 : l.dropWhile pyIsSpace = [] := by
    rw [List.dropWhile_eq_nil_iff]
    exact h
  simp [pyStrip, h1]

theorem build_rich_text_all_space (s : String)
    (h : ∀ c ∈ s.data, pyIsSpace c = true) :
    build_rich_text (RawValue.str s) = [] := by
  simp [build_rich_text, pyStrip_eq_nil_of_all_space s.data h]

/-- C9: for a plain-text (rich-text or title) destination field, the
constructor applied to a nonempty whitespace-only string, or to an empty
list, does not return absent: it returns a value whose segment list is
empty, so the construction counts as a success and the empty text value is
placed in the update payload (shown on the concrete record `c9page` with
metadata `c9md`, whose payload maps the abstract field to an empty
rich-text value). -/
theorem C9_whitespace_only_builds_empty_value :
    (∀ (items : List RichTextItem) (s : String), s ≠ "" →
        (∀ c ∈ s.data, pyIsSpace c = true) →
        build_property_value (some (NotionProp.rich_text items)) (RawValue.str s)
            = some (PropPayload.rich_text []) ∧
        build_property_value (some (NotionProp.title items)) (RawValue.str s)
            = some (PropPayload.title [])) ∧
    (∀ items : List RichTextItem,
        build_property_value (some (NotionProp.rich_text items)) (RawValue.list [])
          = some (PropPayload.rich_text [])) ∧
    (payloadHas (build_update_payload {} c9page c9md) "Abstract" = true ∧
      propsGet (build_update_payload {} c9page c9md) "Abstract"
        = some (PropPayload.rich_text [])) := by
  refine ⟨?_, ?_, by decide, by decide⟩
  · intro items s hs hsp
    have hbr := build_rich_text_all_space s hsp
    constructor <;> simp [build_property_value, hs, hbr]
  · intro items
    simp [build_property_value, build_rich_text, joinSep, pyStrip]

/-- Witness for C9: the single-space string instantiates the general
statement. -/
theorem C9_whitespace_only_builds_empty_value_witness :
    build_property_value (some (NotionProp.rich_text [])) (RawValue.str " ")
        = some (PropPayload.rich_text []) ∧
      build_property_value (some (NotionProp.title [])) (RawValue.str " ")
        = some (PropPayload.title []) :=
  C9_whitespace_only_builds_empty_value.1 [] " " (by decide) (by decide)

/-! ## Claim C2: the 1800-character chunking of plain text

The spec asserts a lossless round trip: the segments of a constructed
plain-text value concatenate back to the original trimmed string.  The
code chunks with `textwrap.wrap(text, width=1800)`, whose default
`drop_whitespace=True` deletes the whitespace at every chunk boundary, so
any trimmed string longer than 1800 characters that wraps at a space loses
that space.  The concrete input below (1800 `'a'`s, a space, `'b'`)
evidences the divergence. -/

/-- The failing input: 1800 copies of `'a'`, one space, one `'b'` —
an 1802-character trimmed string. -/
def c2Text : List Char := List.replicate 1800 'a' ++ [' ', 'b']

/-- The failing input as a string. -/
def c2Str : String := String.mk c2Text

/-- The first segment the code produces for `c2Str`. -/
def c2SegA : String := String.mk (List.replicate 1800 'a')

theorem c2Text_cons :
    c2Text = 'a' :: (List.replicate 1799 'a' ++ [' ', 'b']) := by
  rw [c2Text, show (1800 : Nat) = 1799 + 1 by norm_num, List.replicate_succ]
  rfl

theorem expandTabs_id (ts : Nat) :
    ∀ (l : List Char) (col : Nat), (∀ c ∈ l, ¬ c = '\t') →
      expandTabs ts col l = l := by
  intro l
  induction l with
  | nil => intro col _; rfl
  | cons c cs ih =>
    intro col h
    have hc : ¬ c = '\t' := h c (List.mem_cons_self c cs)
    have hcs : ∀ c2 ∈ cs, ¬ c2 = '\t' := fun c2 hm => h c2 (List.mem_cons_of_mem c hm)
    by_cases hnl : c = '\n' || c = '\r'
    · simp [expandTabs, hc, hnl, ih 0 hcs]
    · simp [expandTabs, hc, hnl, ih (col + 1) hcs]

theorem c2Text_no_tab : ∀ c ∈ c2Text, ¬ c = '\t' := by
  intro c hc
  rcases List.mem_append.mp hc with hm | hm
  · rw [List.eq_of_mem_replicate hm]; decide
  · rcases List.mem_cons.mp hm with h1 | h1
    · rw [h1]; decide
    · rcases List.mem_cons.mp h1 with h2 | h2
      · rw [h2]; decide
      · cases h2

theorem munge_c2 : munge c2Text = c2Text := by
  rw [munge, expandTabs_id 8 c2Text 0 c2Text_no_tab, c2Text, List.map_append,
    List.map_replicate, show mungeChar 'a' = 'a' from by decide,
    show List.map mungeChar [' ', 'b'] = [' ', 'b'] from by decide]

theorem c2_foldr_tail : List.foldr addChar [] [' ', 'b'] = [[' '], ['b']] := by decide

theorem c2_foldr_rep :
    ∀ n : Nat, List.foldr addChar [[' '], ['b']] (List.replicate (n + 1) 'a')
      = List.replicate (n + 1) 'a' :: [[' '], ['b']] := by
  intro n
  induction n with
  | zero => decide
  | succ m ih =>
    rw [show m + 1 + 1 = (m + 1) + 1 by rfl, List.replicate_succ, List.foldr_cons, ih]
    rw [List.replicate_succ]
    simp [addChar]

theorem splitRuns_c2 :
    splitRuns c2Text = [List.replicate 1800 'a', [' '], ['b']] := by
  rw [splitRuns, c2Text, List.foldr_append, c2_foldr_tail,
    show (1800 : Nat) = 1799 + 1 by norm_num, c2_foldr_rep 1799]

theorem pyStrip_c2 : pyStrip c2Text = c2Text := by
  have h1 : c2Text.dropWhile pyIsSpace = c2Text := by
    rw [c2Text_cons, List.dropWhile_cons, if_neg (by decide)]
  have h2 : c2Text.reverse = 'b' :: ' ' :: (List.replicate 1800 'a').reverse := by
    rw [c2Text, List.reverse_append,
      show ([' ', 'b'] : List Char).reverse = ['b', ' '] from by decide]
    simp only [List.cons_append, List.nil_append]
  have h3 : c2Text.reverse.dropWhile pyIsSpace = c2Text.reverse := by
    rw [h2, List.dropWhile_cons, if_neg (by decide)]
  rw [pyStrip, h1, h3, List.reverse_reverse]

theorem isBlank_repA : isBlank (List.replicate 1800 'a') = false := by
  rw [show (1800 : Nat) = 1799 + 1 by norm_num, List.replicate_succ, isBlank,
    List.all_cons, show pyIsSpace 'a' = false from by decide]
  exact Bool.false_and _

theorem takeLine_c2A (A : List Char) (hA : A.length = 1800) :
    takeLine 1800 0 [A, [' '], ['b']] = ([A], [[' '], ['b']]) := by
  simp [takeLine, hA]

theorem lineStep_c2A (A : List Char) (hA : A.length = 1800) :
    lineStep 1800 [A, [' '], ['b']] = ([A], [[' '], ['b']]) := by
  rw [lineStep, takeLine_c2A A hA]
  simp

theorem wrapLoop_nil (width : Nat) (hasLines : Bool) :
    wrapLoop width hasLines [] = [] := by
  rw [wrapLoop]
  simp [wrapDrop]

theorem wrapLoop_c2_second :
    wrapLoop 1800 true [[' '], ['b']] = [['b']] := by
  have hls : lineStep 1800 [['b']] = ([['b']], []) := by
    simp [lineStep, takeLine]
  rw [wrapLoop]
  simp [wrapDrop, show isBlank [' '] = true from by decide, hls, dropTrailingBlank,
    show isBlank ['b'] = false from by decide, wrapLoop_nil]

theorem wrapLoop_c2A (A : List Char) (hA : A.length = 1800)
    (hbl : isBlank A = false) :
    wrapLoop 1800 false [A, [' '], ['b']] = [A, ['b']] := by
  rw [wrapLoop]
  simp only [wrapDrop, Bool.false_and, Bool.false_eq_true, if_false]
  simp [lineStep_c2A A hA, dropTrailingBlank, hbl, wrapLoop_c2_second]

theorem pyWrap_c2 :
    pyWrap 1800 c2Text = [List.replicate 1800 'a', ['b']] := by
  rw [pyWrap, munge_c2, splitRuns_c2,
    wrapLoop_c2A (List.replicate 1800 'a') (List.length_replicate 1800 'a') isBlank_repA]

theorem c2Text_ne_nil : c2Text.isEmpty = false := by
  rw [c2Text_cons]; rfl

theorem c2Str_data : c2Str.data = c2Text := rfl

theorem c2Str_len : c2Str.data.length = 1802 := by
  rw [c2Str_data, c2Text, List.length_append, List.length_replicate]
  rfl

theorem c2Str_ne_empty : ¬ c2Str = "" := by
  intro h
  have hd := congrArg String.data h
  rw [c2Str_data] at hd
  have hlen := congrArg List.length hd
  rw [c2Text, List.length_append, List.length_replicate] at hlen
  simp at hlen

theorem build_rich_text_c2 :
    build_rich_text (RawValue.str c2Str)
      = [{ plain_text := Option.none, content := some c2SegA },
         { plain_text := Option.none, content := some "b" }] := by
  rw [build_rich_text]
  simp only [c2Str_data, pyStrip_c2, c2Text_ne_nil, Bool.false_eq_true, if_false,
    pyWrap_c2, List.map_cons, List.map_nil]
  rfl

theorem decode_c2_data :
    (decode_segments
        [{ plain_text := Option.none, content := some c2SegA },
         { plain_text := Option.none, content := some "b" }]).data
      = List.replicate 1800 'a' ++ ['b'] := rfl

/-- C2 (code-bug evidence): on the trimmed 1802-character input `c2Str`
(1800 `'a'`s, a space, `'b'`), the plain-text constructor produces the two
segments `c2SegA` (= 1800 `'a'`s) and `"b"`, each within the 1800-character
cap — but decoding and re-joining the segments yields a 1801-character
string that is NOT the original trimmed input: the space is dropped at the
chunk boundary, contradicting the claimed lossless round trip. -/
theorem C2_chunking_loses_whitespace :
    build_property_value (some (NotionProp.rich_text [])) (RawValue.str c2Str)
        = some (PropPayload.rich_text
            [{ plain_text := Option.none, content := some c2SegA },
             { plain_text := Option.none, content := some "b" }]) ∧
      decode_segments
          [{ plain_text := Option.none, content := some c2SegA },
           { plain_text := Option.none, content := some "b" }] ≠ pyStripStr c2Str ∧
      pyStripStr c2Str = c2Str ∧
      c2Str.length = 1802 ∧ c2SegA.length = 1800 ∧ ("b" : String).length = 1 := by
  have hne : ¬ (RawValue.str c2Str = RawValue.none ∨ RawValue.str c2Str = RawValue.str "") := by
    intro h
    rcases h with h | h
    · cases h
    · exact c2Str_ne_empty (RawValue.str.inj h)
  have hstrip : pyStripStr c2Str = c2Str := by
    have hd : pyStrip c2Str.data = c2Str.data := by rw [c2Str_data, pyStrip_c2]
    rw [pyStripStr, hd]
  refine ⟨?_, ?_, hstrip, ?_, ?_, rfl⟩
  · rw [build_property_value]
    rw [if_neg hne]
    rw [build_rich_text_c2]
  · intro heq
    have hd := congrArg (fun s => s.data.length) heq
    rw [hstrip] at hd
    simp only [decode_c2_data] at hd
    rw [List.length_append, List.length_replicate] at hd
    rw [c2Str_len] at hd
    simp at hd
  · show c2Str.data.length = 1802
    exact c2Str_len
  · show c2SegA.data.length = 1800
    rw [show c2SegA.data = List.replicate 1800 'a' from rfl, List.length_replicate]

/-! ## Claim C4: idempotence of reconciliation -/

theorem hasvalue_of_propsGet (payload : Payload)
    (hall : payload.all (fun e => property_has_value (payloadToProp e.2)) = true)
    (k : String) (v : PropPayload) (h : propsGet payload k = some v) :
    property_has_value (payloadToProp v) = true := by
  simp only [propsGet, Option.map_eq_some'] at h
  rcases h with ⟨e, hfind, hsnd⟩
  have hmem := List.mem_of_find?_eq_some hfind
  have := List.all_eq_true.mp hall e hmem
  rw [← hsnd]
  simpa using this

theorem extract_title_ne (props : PropertyConfig) (ps : PropMap)
    (h : ¬ extract_title props ps = "") :
    ∃ items, propsGet ps props.title = some (NotionProp.title items) ∧
      property_has_value (NotionProp.title items) = true := by
  unfold extract_title at h
  cases hg : propsGet ps props.title with
  | none => rw [hg] at h; exact absurd rfl h
  | some prop =>
    rw [hg] at h
    cases prop with
    | title items =>
      refine ⟨items, rfl, ?_⟩
      cases hitems : items with
      | nil =>
        rw [hitems] at h
        exact absurd rfl h
      | cons it rest => simp [property_has_value]
    | rich_text items => exact absurd rfl h
    | multi_select names => exact absurd rfl h
    | date start => exact absurd rfl h
    | unsupported => exact absurd rfl h

theorem maybe_set_second_skip (properties : PropMap) (payload : Payload)
    (hnd : (keysOf payload).Nodup)
    (hall : payload.all (fun e => property_has_value (payloadToProp e.2)) = true)
    (n : Option String) (raw : RawValue) (acc : Payload)
    (hmiss : ∀ (name : String) (prop : NotionProp), n = some name → name ≠ "" →
        propsGet properties name = some prop → property_has_value prop = false →
        payloadHas payload name = false →
        build_property_value (some prop) raw = Option.none) :
    maybe_set (apply_payload properties payload) acc n
      (build_property_value (propsGetOpt (apply_payload properties payload) n) raw)
      = acc := by
  cases n with
  | none => rfl
  | some name =>
    by_cases hname : name = ""
    · simp [maybe_set, hname]
    · simp only [maybe_set, hname, if_false, propsGetOpt]
      have happ := propsGet_apply_payload payload hnd properties name
      cases hpay : propsGet payload name with
      | some v =>
        have hv : property_has_value (payloadToProp v) = true :=
          hasvalue_of_propsGet payload hall name v hpay
        rw [hpay] at happ
        rw [happ]
        simp [hv]
      | none =>
        rw [hpay] at happ
        rw [happ]
        cases hget : propsGet properties name with
        | none => simp
        | some prop =>
          by_cases hval : property_has_value prop
          · simp [hval]
          · have hbn : build_property_value (some prop) raw = Option.none :=
              hmiss name prop rfl hname hget (by simpa using hval)
                (payloadHas_eq_false_of_get_none payload name hpay)
            simp [hval, hbn]

theorem build_fold_second (properties : PropMap) (payload : Payload)
    (hnd : (keysOf payload).Nodup)
    (hall : payload.all (fun e => property_has_value (payloadToProp e.2)) = true) :
    ∀ (pairs : List (Option String × RawValue)) (acc : Payload),
      (∀ pr ∈ pairs, ∀ (name : String) (prop : NotionProp),
          pr.1 = some name → name ≠ "" → propsGet properties name = some prop →
          property_has_value prop = false → payloadHas payload name = false →
          build_property_value (some prop) pr.2 = Option.none) →
      build_fold (apply_payload properties payload) pairs acc = acc := by
  intro pairs
  induction pairs with
  | nil => intro acc _; rfl
  | cons pr rest ih =>
    intro acc hmiss
    have hstep := maybe_set_second_skip properties payload hnd hall pr.1 pr.2 acc
      (fun name prop => hmiss pr (List.mem_cons_self pr rest) name prop)
    show build_fold (apply_payload properties payload) rest
        (maybe_set (apply_payload properties payload) acc pr.1
          (build_property_value
            (propsGetOpt (apply_payload properties payload) pr.1) pr.2)) = acc
    rw [hstep]
    exact ih acc (fun pr2 hm2 => hmiss pr2 (List.mem_cons_of_mem pr hm2))

/-- C4 (amended): for every record, configuration and lookup function,
running the reconciler once and applying the resulting payload to the
record makes a second run yield an empty payload — provided every value in
the first payload is itself non-empty under the per-kind presence rule.
(Without that proviso the claim fails: a whitespace-only or empty-list
lookup value builds an empty typed value that does not register as
present, so the same field is rebuilt on every run; see the
counterexample.) -/
theorem C4_reconcile_idempotent (props : PropertyConfig) (properties : PropMap)
    (lookup : String → Option Metadata)
    (hall : (reconcile props properties lookup).all
        (fun e => property_has_value (payloadToProp e.2)) = true) :
    reconcile props (apply_payload properties (reconcile props properties lookup))
      lookup = [] := by
  by_cases h1 : extract_title props properties = ""
  · have hfirst : reconcile props properties lookup = [] := by simp [reconcile, h1]
    rw [hfirst, apply_payload_nil, hfirst]
  · by_cases h2 : (missing_fields props properties).isEmpty
    · have hfirst : reconcile props properties lookup = [] := by
        simp [reconcile, h1, h2]
      rw [hfirst, apply_payload_nil, hfirst]
    · cases h3 : lookup (extract_title props properties) with
      | none =>
        have hfirst : reconcile props properties lookup = [] := by
          simp [reconcile, h1, h2, h3]
        rw [hfirst, apply_payload_nil, hfirst]
      | some md =>
        have hfirst : reconcile props properties lookup
            = build_update_payload props properties md := by
          simp [reconcile, h1, h2, h3]
        rw [hfirst] at hall ⊢
        obtain ⟨items, htget, htval⟩ := extract_title_ne props properties h1
        have hnd := nodup_keys_build_update_payload props properties md
        have hth : payloadHas (build_update_payload props properties md)
            props.title = false :=
          payloadHas_build_update_payload_false props properties md props.title _
            htget htval
        have htgetpay : propsGet (build_update_payload props properties md)
            props.title = Option.none :=
          propsGet_eq_none_of_not_has _ _ hth
        have htitle' :
            propsGet (apply_payload properties (build_update_payload props properties md))
                props.title
              = propsGet properties props.title := by
          rw [propsGet_apply_payload (build_update_payload props properties md) hnd,
            htgetpay]
        have hext :
            extract_title props
                (apply_payload properties (build_update_payload props properties md))
              = extract_title props properties := by
          simp only [extract_title]
          rw [htitle']
        by_cases h4 : (missing_fields props
            (apply_payload properties (build_update_payload props properties md))).isEmpty
        · simp [reconcile, hext, h1, h4]
        · simp only [reconcile, hext, h1, if_false, h4, h3]
          show build_fold
              (apply_payload properties (build_update_payload props properties md))
              (rolePairs props md) [] = []
          apply build_fold_second properties (build_update_payload props properties md)
            hnd hall (rolePairs props md) []
          intro pr hpr name prop hprn hname hget hval hhas
          have := build_fold_first_none properties (rolePairs props md) [] name pr.2 prop
            (by rw [← hprn]; exact hpr) hget hval hname hhas
          exact this

/-- The configuration for the C4 counterexample: only the title and the
abstract are tracked. -/
def c4props : PropertyConfig :=
  { title := "Name", authors := Option.none, published := Option.none,
    venue := Option.none, citation := Option.none, abstract := some "Abstract" }

/-- A record with a nonempty title and an empty abstract field. -/
def c4page : PropMap :=
  [("Name", NotionProp.title [{ plain_text := some "T", content := Option.none }]),
   ("Abstract", NotionProp.rich_text [])]

/-- A fixed lookup result whose abstract is a single space. -/
def c4md : Metadata :=
  { title := some "T", authors := [], venue := Option.none, year := Option.none,
    publication_date := Option.none, citation := Option.none, abstract := some " " }

/-- The fixed lookup function of the C4 counterexample. -/
def c4lookup : String → Option Metadata := fun _ => some c4md

/-- C4 counterexample: with a whitespace-only abstract in the lookup
result, the first run writes an empty rich-text value; after applying that
payload the field still counts as empty, so the second run produces the
same nonempty payload again instead of the empty payload the claim
promises. -/
theorem C4_idempotence_counterexample :
    reconcile c4props c4page c4lookup
        = [("Abstract", PropPayload.rich_text [])] ∧
      reconcile c4props (apply_payload c4page (reconcile c4props c4page c4lookup))
          c4lookup
        = [("Abstract", PropPayload.rich_text [])] ∧
      reconcile c4props (apply_payload c4page (reconcile c4props c4page c4lookup))
          c4lookup ≠ [] := by
  refine ⟨by decide, by decide, by decide⟩

/-- The configuration for the C4 witness: title plus a tracked authors
field. -/
def c4wprops : PropertyConfig :=
  { title := "Name", authors := some "Author", published := Option.none,
    venue := Option.none, citation := Option.none, abstract := Option.none }

/-- A record with a nonempty title and an empty multi-select authors
field. -/
def c4wpage : PropMap :=
  [("Name", NotionProp.title [{ plain_text := some "Foo", content := Option.none }]),
   ("Author", NotionProp.multi_select [])]

/-- A lookup result with one author. -/
def c4wmd : Metadata :=
  { title := some "Foo", authors := ["J. Doe"], venue := Option.none,
    year := Option.none, publication_date := Option.none, citation := Option.none,
    abstract := Option.none }

/-- The fixed lookup function of the C4 witness. -/
def c4wlookup : String → Option Metadata := fun _ => some c4wmd

/-- Witness for C4: on a concrete record the first payload's values are
all non-empty, and the second run is empty. -/
theorem C4_reconcile_idempotent_witness :
    (reconcile c4wprops c4wpage c4wlookup).all
        (fun e => property_has_value (payloadToProp e.2)) = true ∧
      reconcile c4wprops
          (apply_payload c4wpage (reconcile c4wprops c4wpage c4wlookup))
          c4wlookup = [] :=
  ⟨by decide, C4_reconcile_idempotent c4wprops c4wpage c4wlookup (by decide)⟩

end PaperArchive
